import Mathlib

/-!
Shallow embedding of the Connect-Four backend (Go sources under
`backend/internal/game`, `backend/internal/matchmaker`) and proofs about it.

Conventions of the embedding:
* Go's in-place mutation is modelled by explicit state passing: each mutating
  method returns the new state together with its Go return values.
* Go `int` cell/player/column values are modelled as `Int`; row and column
  indices that are known to be in range are `Fin 6` / `Fin 7`.
* Wall-clock timestamps are abstract natural numbers (seconds); `time.Since`
  becomes a subtraction of the stored timestamp from a `now` parameter.
* `uuid.New()` is modelled by passing the fresh id as a parameter.
* Go's nil-able `*Player` / `*Player` winner pointers are `Option` values; the
  winner pointer is modelled by the winning player's number.
-/

namespace ConnectFour

/-- Board dimensions, from `const ( Rows = 6; Columns = 7 )`. -/
def Rows : Nat := 6

/-- Number of columns of the grid. -/
def Columns : Nat := 7

/-- Cell value for an empty cell (`Empty = 0`). -/
def Empty : Int := 0

/-- Player one's number (`Player1 = 1`). -/
def Player1 : Int := 1

/-- Player two's number (`Player2 = 2`). -/
def Player2 : Int := 2

/-- The board: a 6×7 grid of cell values (`cells [Rows][Columns]int`).
Row 0 is the top row, row 5 the bottom row. -/
structure Board where
  cells : Fin 6 → Fin 7 → Int

instance : DecidableEq Board := fun a b =>
  decidable_of_iff (a.cells = b.cells) (by cases a; cases b; simp)

/-- `NewBoard` creates an empty board (Go zero value: all cells 0). -/
def newBoard : Board := ⟨fun _ _ => Empty⟩

/-- Helper to build concrete boards in examples. -/
def boardOf (f : Nat → Nat → Int) : Board := ⟨fun r c => f r.val c.val⟩

/-- Writing one cell of the board (`b.cells[row][column] = v`). -/
def setCell (b : Board) (r : Fin 6) (c : Fin 7) (v : Int) : Board :=
  ⟨fun r' c' => if r' = r ∧ c' = c then v else b.cells r' c'⟩

/-- The error values produced by the game package (`errors.New(...)` in
`DropDisc` and the package-level `GameError`s used by `MakeMove`). -/
inductive GameErr where
  | invalidColumn
  | invalidPlayer
  | columnFull
  | gameNotInProgress
  | notYourTurn
  deriving DecidableEq, Repr

instance : DecidableEq (Except GameErr (Fin 6)) := fun a b =>
  match a, b with
  | .ok x, .ok y => decidable_of_iff (x = y) (by simp)
  | .error x, .error y => decidable_of_iff (x = y) (by simp)
  | .ok _, .error _ => isFalse (by simp)
  | .error _, .ok _ => isFalse (by simp)

/-- The rows in the order `DropDisc` scans them: `for row := Rows-1; row >= 0; row--`. -/
def rowsBottomUp : List (Fin 6) := (List.finRange 6).reverse

/-- The rows in the order `UndoMove` scans them: `for row := 0; row < Rows; row++`. -/
def rowsTopDown : List (Fin 6) := List.finRange 6

/-- The common body of `DropDisc`/`DropDiscUnsafe` once the column is known to be
in range: find the lowest empty row in the column and fill it, or report that
the column is full. -/
def dropScan (b : Board) (c : Fin 7) (player : Int) : Board × Except GameErr (Fin 6) :=
  match rowsBottomUp.find? (fun r => b.cells r c == Empty) with
  | some r => (setCell b r c player, .ok r)
  | none => (b, .error .columnFull)

/-- `DropDisc(column, player)`: validates the column bounds and the player
value, then drops into the lowest empty cell.  Returns the (unchanged on
error) board and the landing row or error. -/
def dropDisc (b : Board) (column player : Int) : Board × Except GameErr (Fin 6) :=
  if h : column < 0 ∨ (Columns : Int) ≤ column then (b, .error .invalidColumn)
  else if player ≠ Player1 ∧ player ≠ Player2 then (b, .error .invalidPlayer)
  else dropScan b ⟨column.toNat, by unfold Columns at h; omega⟩ player

/-- `DropDiscUnsafe(column, player)`: like `dropDisc` but without the player
validation (and without locking, which the pure model does not need). -/
def dropDiscUnsafe (b : Board) (column player : Int) : Board × Except GameErr (Fin 6) :=
  if h : column < 0 ∨ (Columns : Int) ≤ column then (b, .error .invalidColumn)
  else dropScan b ⟨column.toNat, by unfold Columns at h; omega⟩ player

/-- `UndoMove(column)`: removes the top disc from a column — the first
non-empty cell scanning from row 0 downwards; no-op on an empty column. -/
def undoMove (b : Board) (c : Fin 7) : Board :=
  match rowsTopDown.find? (fun r => !(b.cells r c == Empty)) with
  | some r => setCell b r c Empty
  | none => b

/-- All horizontal 4-cell windows, in the scan order of `checkWinUnsafe` /
`scoreAllWindows` (`row 0..5`, `col 0..3`). -/
def horizWindows (b : Board) : List (List Int) :=
  (List.finRange 6).flatMap fun r => (List.finRange 4).map fun c =>
    [b.cells r ⟨c.val, by omega⟩, b.cells r ⟨c.val + 1, by omega⟩,
     b.cells r ⟨c.val + 2, by omega⟩, b.cells r ⟨c.val + 3, by omega⟩]

/-- All vertical 4-cell windows (`row 0..2`, `col 0..6`). -/
def vertWindows (b : Board) : List (List Int) :=
  (List.finRange 3).flatMap fun r => (List.finRange 7).map fun c =>
    [b.cells ⟨r.val, by omega⟩ c, b.cells ⟨r.val + 1, by omega⟩ c,
     b.cells ⟨r.val + 2, by omega⟩ c, b.cells ⟨r.val + 3, by omega⟩ c]

/-- All down-right diagonal 4-cell windows (`row 0..2`, `col 0..3`). -/
def diagDRWindows (b : Board) : List (List Int) :=
  (List.finRange 3).flatMap fun r => (List.finRange 4).map fun c =>
    [b.cells ⟨r.val, by omega⟩ ⟨c.val, by omega⟩,
     b.cells ⟨r.val + 1, by omega⟩ ⟨c.val + 1, by omega⟩,
     b.cells ⟨r.val + 2, by omega⟩ ⟨c.val + 2, by omega⟩,
     b.cells ⟨r.val + 3, by omega⟩ ⟨c.val + 3, by omega⟩]

/-- All up-right diagonal 4-cell windows (`row 3..5`, `col 0..3`). -/
def diagURWindows (b : Board) : List (List Int) :=
  (List.finRange 3).flatMap fun r => (List.finRange 4).map fun c =>
    [b.cells ⟨r.val + 3, by omega⟩ ⟨c.val, by omega⟩,
     b.cells ⟨r.val + 2, by omega⟩ ⟨c.val + 1, by omega⟩,
     b.cells ⟨r.val + 1, by omega⟩ ⟨c.val + 2, by omega⟩,
     b.cells ⟨r.val, by omega⟩ ⟨c.val + 3, by omega⟩]

/-- The 4-cell windows scanned by `checkWinUnsafe` and `scoreAllWindows`, in
source order: horizontal, vertical, down-right diagonal, up-right diagonal. -/
def allWindows (b : Board) : List (List Int) :=
  horizWindows b ++ vertWindows b ++ diagDRWindows b ++ diagURWindows b

/-- `CheckWin(player)`: some 4-cell window holds four of the player's discs. -/
def checkWin (b : Board) (player : Int) : Bool :=
  (allWindows b).any fun w => w.all fun cell => cell == player

/-- `IsFull()`: no empty cell in the top row. -/
def isFull (b : Board) : Bool :=
  (List.finRange 7).all fun c => !(b.cells 0 c == Empty)

/-- `GetValidColumns()`: the columns whose top cell is empty, ascending. -/
def getValidColumns (b : Board) : List (Fin 7) :=
  (List.finRange 7).filter fun c => b.cells 0 c == Empty

/-- Game status (`GameStatus` string constants). -/
inductive GameStatus where
  | waiting
  | playing
  | finished
  | disconnected
  deriving DecidableEq, Repr

/-- Game result (`GameResult` string constants); Go's zero value `""` is
modelled as `none` at use sites. -/
inductive GameResult where
  | winPlayer1
  | winPlayer2
  | draw
  | forfeit
  deriving DecidableEq, Repr

/-- A player (`Player` struct). -/
structure GPlayer where
  username : String
  playerNum : Int
  isBot : Bool
  isConnected : Bool
  deriving DecidableEq, Repr

/-- A recorded move (`Move` struct, timestamp omitted from the model). -/
structure GMove where
  playerNum : Int
  column : Int
  row : Fin 6
  deriving DecidableEq, Repr

/-- A game instance (`Game` struct).  `winner` is the player number the Go
`Winner *Player` pointer points at (`none` for nil); `result` is `none` for
Go's zero-value `""`; timestamps other than `DisconnectTime` are omitted. -/
structure Game where
  id : String
  player1 : Option GPlayer
  player2 : Option GPlayer
  board : Board
  currentTurn : Int
  status : GameStatus
  winner : Option Int
  result : Option GameResult
  moves : List GMove
  disconnectTime : Nat
  disconnectedPlayer : Int
  deriving DecidableEq

/-- `NewGame(player1Username)` (the uuid is passed in as `id`). -/
def newGame (id player1Username : String) : Game where
  id := id
  player1 := some ⟨player1Username, Player1, false, true⟩
  player2 := none
  board := newBoard
  currentTurn := Player1
  status := .waiting
  winner := none
  result := none
  moves := []
  disconnectTime := 0
  disconnectedPlayer := 0

/-- `AddPlayer2(username, isBot)`: installs player two and starts playing. -/
def addPlayer2 (g : Game) (username : String) (isBot : Bool) : Game :=
  { g with player2 := some ⟨username, Player2, isBot, true⟩, status := .playing }

/-- `MakeMove(playerNum, column)`: validates status and turn, drops the disc,
records the move, then resolves win / draw / turn flip.  Returns the updated
game and the landing row or error. -/
def makeMove (g : Game) (playerNum column : Int) : Game × Except GameErr (Fin 6) :=
  if g.status ≠ .playing then (g, .error .gameNotInProgress)
  else if g.currentTurn ≠ playerNum then (g, .error .notYourTurn)
  else
    match dropDisc g.board column playerNum with
    | (_, .error e) => (g, .error e)
    | (b', .ok row) =>
      let g1 := { g with board := b', moves := g.moves ++ [(⟨playerNum, column, row⟩ : GMove)] }
      if checkWin b' playerNum then
        if playerNum == Player1 then
          ({ g1 with status := .finished, winner := some Player1,
                     result := some .winPlayer1 }, .ok row)
        else
          ({ g1 with status := .finished, winner := some Player2,
                     result := some .winPlayer2 }, .ok row)
      else if isFull b' then
        ({ g1 with status := .finished, result := some .draw }, .ok row)
      else
        ({ g1 with currentTurn :=
             if g.currentTurn == Player1 then Player2 else Player1 }, .ok row)

/-- `PlayerDisconnected(playerNum)` at abstract time `now`. -/
def playerDisconnected (g : Game) (playerNum : Int) (now : Nat) : Game :=
  if g.status ≠ .playing then g
  else
    let g1 := { g with disconnectedPlayer := playerNum, disconnectTime := now,
                       status := .disconnected }
    if playerNum == Player1 then
      { g1 with player1 := g1.player1.map fun p => { p with isConnected := false } }
    else
      { g1 with player2 := g1.player2.map fun p => { p with isConnected := false } }

/-- `PlayerReconnected(playerNum)` at abstract time `now` (seconds);
`time.Since(g.DisconnectTime) > 30*time.Second` becomes
`now - g.disconnectTime > 30`. -/
def playerReconnected (g : Game) (playerNum : Int) (now : Nat) : Game × Bool :=
  if g.status ≠ .disconnected ∨ g.disconnectedPlayer ≠ playerNum then (g, false)
  else if now - g.disconnectTime > 30 then (g, false)
  else
    let g1 := { g with status := .playing, disconnectedPlayer := 0,
                       disconnectTime := 0 }
    if playerNum == Player1 then
      ({ g1 with player1 := g1.player1.map fun p => { p with isConnected := true } }, true)
    else
      ({ g1 with player2 := g1.player2.map fun p => { p with isConnected := true } }, true)

/-- `Forfeit(loserPlayerNum)`: unconditionally records a forfeit win for the
other side (the Go code has no status guard). -/
def forfeit (g : Game) (loserPlayerNum : Int) : Game :=
  { g with status := .finished, result := some .forfeit,
           winner := if loserPlayerNum == Player1 then some Player2 else some Player1 }

/-- `math.MinInt32`. -/
def minInt32 : Int := -2147483648

/-- `math.MaxInt32`. -/
def maxInt32 : Int := 2147483647

/-- The bot (`Bot` struct). -/
structure Bot where
  player : Int
  opponent : Int
  maxDepth : Nat
  deriving DecidableEq, Repr

/-- `NewBot(player)`: opponent defaults to `Player1` and is flipped to
`Player2` when the bot itself is `Player1`; search depth 5. -/
def newBot (player : Int) : Bot :=
  ⟨player, if player == Player1 then Player2 else Player1, 5⟩

/-- `scoreWindow(window)`: counts the bot's, the opponent's and the empty
cells of a 4-cell window (the Go `switch` tried in that order) and applies
the scoring heuristics. -/
def scoreWindow (bot : Bot) (w : List Int) : Int :=
  let counts := w.foldl
    (fun (t : Int × Int × Int) cell =>
      if cell == bot.player then (t.1 + 1, t.2.1, t.2.2)
      else if cell == bot.opponent then (t.1, t.2.1 + 1, t.2.2)
      else if cell == Empty then (t.1, t.2.1, t.2.2 + 1)
      else t)
    (0, 0, 0)
  let botCount := counts.1
  let oppCount := counts.2.1
  let emptyCount := counts.2.2
  if botCount == 4 then 100
  else if botCount == 3 && emptyCount == 1 then 5
  else if botCount == 2 && emptyCount == 2 then 2
  else if oppCount == 3 && emptyCount == 1 then -4
  else 0

/-- `scoreAllWindows(board)`: sums `scoreWindow` over every 4-cell window. -/
def scoreAllWindows (bot : Bot) (b : Board) : Int :=
  ((allWindows b).map (scoreWindow bot)).foldl (· + ·) 0

/-- `evaluateBoard(board)`: 3 points per own disc in the center column plus
the window scores. -/
def evaluateBoard (bot : Bot) (b : Board) : Int :=
  let centerCount : Int :=
    (List.finRange 6).foldl
      (fun acc r => if b.cells r ⟨Columns / 2, by decide⟩ == bot.player then acc + 1 else acc) 0
  centerCount * 3 + scoreAllWindows bot b

/-- The maximizing loop of `minimax`: iterate the valid columns, drop the
maximizing player's disc, score via `step` (the depth-reduced recursive
call), undo, update `maxScore`/`alpha`, and break when `beta <= alpha`. -/
def maximize (step : Board → Int → Int → Int) (player : Int) :
    Board → List (Fin 7) → Int → Int → Int → Int
  | _, [], _, _, maxScore => maxScore
  | b, col :: rest, alpha, beta, maxScore =>
    let b1 := (dropDiscUnsafe b (col.val : Int) player).1
    let score := step b1 alpha beta
    let b2 := undoMove b1 col
    let maxScore1 := max maxScore score
    let alpha1 := max alpha score
    if beta ≤ alpha1 then maxScore1
    else maximize step player b2 rest alpha1 beta maxScore1

/-- The minimizing loop of `minimax`, dual to `maximize`. -/
def minimize (step : Board → Int → Int → Int) (player : Int) :
    Board → List (Fin 7) → Int → Int → Int → Int
  | _, [], _, _, minScore => minScore
  | b, col :: rest, alpha, beta, minScore =>
    let b1 := (dropDiscUnsafe b (col.val : Int) player).1
    let score := step b1 alpha beta
    let b2 := undoMove b1 col
    let minScore1 := min minScore score
    let beta1 := min beta score
    if beta1 ≤ alpha then minScore1
    else minimize step player b2 rest alpha beta1 minScore1

/-- `minimax(board, depth, alpha, beta, isMaximizing)` with alpha-beta
pruning; the recursion is on the remaining `depth`. -/
def minimax (bot : Bot) (depth : Nat) (b : Board) (alpha beta : Int)
    (isMaximizing : Bool) : Int :=
  if checkWin b bot.player then 10000 + (depth : Int)
  else if checkWin b bot.opponent then -10000 - (depth : Int)
  else if isFull b || depth == 0 then evaluateBoard bot b
  else
    let validCols := getValidColumns b
    if validCols.isEmpty then 0
    else
      match depth with
      | 0 => evaluateBoard bot b
      | d + 1 =>
        if isMaximizing then
          maximize (fun b1 a bt => minimax bot d b1 a bt false) bot.player
            b validCols alpha beta minInt32
        else
          minimize (fun b1 a bt => minimax bot d b1 a bt true) bot.opponent
            b validCols alpha beta maxInt32
  termination_by depth

/-- The first loop of `GetBestMove`: look for an immediately winning column
for `bot.player`, speculatively dropping and undoing on the working board,
which is threaded through exactly as the Go code mutates it. -/
def bestMoveWinScan (bot : Bot) : Board → List (Fin 7) → Option (Fin 7) × Board
  | b, [] => (none, b)
  | b, col :: rest =>
    let b1 := (dropDiscUnsafe b (col.val : Int) bot.player).1
    if checkWin b1 bot.player then (some col, undoMove b1 col)
    else bestMoveWinScan bot (undoMove b1 col) rest

/-- The second loop of `GetBestMove`: look for a column where the opponent
would win, to block it. -/
def bestMoveBlockScan (bot : Bot) : Board → List (Fin 7) → Option (Fin 7) × Board
  | b, [] => (none, b)
  | b, col :: rest =>
    let b1 := (dropDiscUnsafe b (col.val : Int) bot.opponent).1
    if checkWin b1 bot.opponent then (some col, undoMove b1 col)
    else bestMoveBlockScan bot (undoMove b1 col) rest

/-- The center-first tie-breaking column order `{3, 2, 4, 1, 5, 0, 6}`. -/
def columnOrder : List (Fin 7) := [3, 2, 4, 1, 5, 0, 6]

/-- The valid columns reordered center-first (the Go nested loops append each
`columnOrder` entry that occurs among the valid columns). -/
def orderedColumns (validCols : List (Fin 7)) : List (Fin 7) :=
  columnOrder.filter fun col => validCols.contains col

/-- The minimax loop of `GetBestMove`: evaluate each ordered column at depth
`maxDepth - 1` and keep the first column with a strictly better score. -/
def bestMoveSearch (bot : Bot) : Board → List (Fin 7) → Int → Fin 7 → Fin 7
  | _, [], _, bestCol => bestCol
  | b, col :: rest, bestScore, bestCol =>
    let b1 := (dropDiscUnsafe b (col.val : Int) bot.player).1
    let score := minimax bot (bot.maxDepth - 1) b1 minInt32 maxInt32 false
    let b2 := undoMove b1 col
    if bestScore < score then bestMoveSearch bot b2 rest score col
    else bestMoveSearch bot b2 rest bestScore bestCol

/-- `GetBestMove(board)`: win scan, then block scan, then minimax over the
center-first ordering seeded with `validCols[0]`.  The board is cloned up
front, so all speculative mutation stays on the local copy.  `none` models
the Go panic on `validCols[0]` when no column is valid. -/
def getBestMove (bot : Bot) (board : Board) : Option (Fin 7) :=
  let b := board
  let validCols := getValidColumns b
  match bestMoveWinScan bot b validCols with
  | (some col, _) => some col
  | (none, b1) =>
    match bestMoveBlockScan bot b1 validCols with
    | (some col, _) => some col
    | (none, b2) =>
      match validCols with
      | [] => none
      | c0 :: _ => some (bestMoveSearch bot b2 (orderedColumns validCols) minInt32 c0)

/-- A waiting matchmaking entry (`WaitingPlayer`; the enqueue timestamp and
the notification channel are not modelled — the channel's resolution is
captured by `JoinResult`). -/
structure WaitingPlayer where
  username : String
  deriving DecidableEq, Repr

/-- The matchmaker (`Matchmaker` struct): the FIFO queue and the two
registries, modelled as association lists where the head binding wins
(cons = map insert). -/
structure Matchmaker where
  waitingQueue : List WaitingPlayer
  activeGames : List (String × Game)
  playerGames : List (String × String)
  deriving DecidableEq

/-- What `JoinQueue` delivers on its result channel: an existing game, a
fresh match (sent to both the joiner's and the popped opponent's channels),
or a queued entry waiting for an opponent. -/
inductive JoinResult where
  | existing (g : Game)
  | matched (g : Game)
  | queued
  deriving DecidableEq

/-- The game the code's check `playerGames[username]` → `activeGames[gameID]`
resolves to, if any. -/
def ownsActiveGame (m : Matchmaker) (username : String) : Option Game :=
  match m.playerGames.lookup username with
  | some gameID => m.activeGames.lookup gameID
  | none => none

/-- The body of `JoinQueue` after the rejoin check fell through: pair with
the queue head or append a new waiting entry. -/
def joinQueuePair (m : Matchmaker) (username freshId : String) : Matchmaker × JoinResult :=
  match m.waitingQueue with
  | opponent :: rest =>
    let g := addPlayer2 (newGame freshId opponent.username) username false
    ({ waitingQueue := rest,
       activeGames := (freshId, g) :: m.activeGames,
       playerGames := (opponent.username, freshId) :: (username, freshId) :: m.playerGames },
     .matched g)
  | [] => ({ m with waitingQueue := m.waitingQueue ++ [⟨username⟩] }, .queued)

/-- `JoinQueue(username)` (the fresh uuid is passed as `freshId`): resolve to
the caller's registered game if there is one; else pop the oldest waiting
entry and pair, or append a new waiting entry. -/
def joinQueue (m : Matchmaker) (username freshId : String) : Matchmaker × JoinResult :=
  match m.playerGames.lookup username with
  | some gameID =>
    match m.activeGames.lookup gameID with
    | some g => (m, .existing g)
    | none => joinQueuePair m username freshId
  | none => joinQueuePair m username freshId

/-- One board operation, as the spec's "any sequence of DropDisc and UndoMove
operations" (dropping takes arbitrary `int` arguments since `DropDisc`
validates them itself; `UndoMove` does not validate its column, so the
operation carries an in-range column). -/
inductive BoardOp where
  | drop (column player : Int)
  | undo (column : Fin 7)

/-- Apply one operation to the board. -/
def applyOp (b : Board) : BoardOp → Board
  | .drop column player => (dropDisc b column player).1
  | .undo column => undoMove b column

/-- The board resulting from a sequence of operations on the empty board. -/
def runOps (ops : List BoardOp) : Board := ops.foldl applyOp newBoard

/-- A column is an immediate win for `p` on `b` when dropping `p`'s disc
there makes `checkWin` true for `p`. -/
def winningMove (b : Board) (p : Int) (c : Fin 7) : Bool :=
  checkWin (dropDiscUnsafe b (c.val : Int) p).1 p

/-- A two-human game in status `playing` (player one to move). -/
def sampleGame : Game := addPlayer2 (newGame "game-1" "alice") "bob" false

/-- A game in status `disconnected` (player one dropped at time 100). -/
def disconnectedGame : Game := playerDisconnected sampleGame Player1 100

/-- A game already finished (player two forfeited, so player one won). -/
def finishedByForfeitGame : Game := forfeit sampleGame Player2

/-- The bot playing side two, as built by the matchmaker timeout path. -/
def sampleBot : Bot := newBot Player2

/-- A board violating gravity: a single disc floating at row 1 of column 0. -/
def cexBoardC5 : Board := boardOf fun r c => if r = 1 ∧ c = 0 then Player1 else Empty

/-- A gravity-violating board on which the bot's speculative drop/undo pairs
corrupt the working copy: side two discs at (1,0), (2,1), (3,2) and (5,3).
Dropping at column 3 lands at (4,3) and completes the down-right diagonal. -/
def cexBoardC6 : Board := boardOf fun r c =>
  if r = 1 ∧ c = 0 then Player2
  else if r = 2 ∧ c = 1 then Player2
  else if r = 3 ∧ c = 2 then Player2
  else if r = 5 ∧ c = 3 then Player2
  else Empty

/-- A board with no valid column at all. -/
def fullBoard : Board := boardOf fun _ _ => Player1

/-- A gravity-respecting board where side two wins at once by dropping into
column 3 (bottom row discs at columns 0, 1, 2). -/
def winInOneBoard : Board := boardOf fun r c => if r = 5 ∧ c ≤ 2 then Player2 else Empty

/-- A matchmaker state in which "alice" is registered to a game that is still
in the active set although it has already finished. -/
def cexMatchmaker : Matchmaker := ⟨[], [("g1", finishedByForfeitGame)], [("alice", "g1")]⟩

/-- The gravity invariant: within a column, every cell below (larger row
index than) an occupied cell is occupied. -/
def Gravity (b : Board) : Prop :=
  ∀ (c : Fin 7) (r r' : Fin 6), r ≤ r' → b.cells r c ≠ Empty → b.cells r' c ≠ Empty

instance (b : Board) : Decidable (Gravity b) := by
  unfold Gravity; infer_instance

theorem find?_append_first {α : Type} (q : α → Bool) :
    ∀ (as : List α) (k : α) (bs : List α),
      (∀ x ∈ as, q x = false) → q k = true →
      (as ++ k :: bs).find? q = some k := by
  intro as
  induction as with
  | nil =>
    intro k bs _ hk
    simpa [List.find?_cons] using by rw [hk]
  | cons a as ih =>
    intro k bs hfail hk
    have ha : q a = false := hfail a (by simp)
    rw [List.cons_append, List.find?_cons_of_neg _ (by simp [ha])]
    exact ih k bs (fun x hx => hfail x (by simp [hx])) hk

theorem rowsTopDown_split (k : Fin 6) :
    ∃ as bs, rowsTopDown = as ++ k :: bs ∧
      (∀ x ∈ as, x.val < k.val) ∧ (∀ x ∈ bs, k.val < x.val) := by
  fin_cases k
  · exact ⟨[], [1, 2, 3, 4, 5], by decide, by decide, by decide⟩
  · exact ⟨[0], [2, 3, 4, 5], by decide, by decide, by decide⟩
  · exact ⟨[0, 1], [3, 4, 5], by decide, by decide, by decide⟩
  · exact ⟨[0, 1, 2], [4, 5], by decide, by decide, by decide⟩
  · exact ⟨[0, 1, 2, 3], [5], by decide, by decide, by decide⟩
  · exact ⟨[0, 1, 2, 3, 4], [], by decide, by decide, by decide⟩

theorem mem_rowsTopDown (r : Fin 6) : r ∈ rowsTopDown := List.mem_finRange r

theorem mem_rowsBottomUp (r : Fin 6) : r ∈ rowsBottomUp := by
  unfold rowsBottomUp
  rw [List.mem_reverse]
  exact List.mem_finRange r

theorem pairwise_rowsBottomUp :
    List.Pairwise (fun a b : Fin 6 => b.val < a.val) rowsBottomUp := by decide

theorem pairwise_rowsTopDown :
    List.Pairwise (fun a b : Fin 6 => a.val < b.val) rowsTopDown := by decide

theorem setCell_cells (b : Board) (r : Fin 6) (c : Fin 7) (v : Int)
    (r' : Fin 6) (c' : Fin 7) :
    (setCell b r c v).cells r' c' = if r' = r ∧ c' = c then v else b.cells r' c' := rfl

theorem setCell_self {b : Board} {r : Fin 6} {c : Fin 7} {v : Int}
    (h : b.cells r c = v) : setCell b r c v = b := by
  cases b with
  | mk cells =>
    unfold setCell
    congr 1
    funext r' c'
    by_cases hrc : r' = r ∧ c' = c
    · obtain ⟨rfl, rfl⟩ := hrc
      simp [← h]
    · simp [hrc]

theorem setCell_setCell (b : Board) (r : Fin 6) (c : Fin 7) (v w : Int) :
    setCell (setCell b r c v) r c w = setCell b r c w := by
  unfold setCell
  congr 1
  funext r' c'
  by_cases hrc : r' = r ∧ c' = c <;> simp [hrc]

theorem dropScan_ok {b b' : Board} {c : Fin 7} {p : Int} {r : Fin 6}
    (h : dropScan b c p = (b', .ok r)) :
    b.cells r c = Empty ∧ (∀ r' : Fin 6, r < r' → b.cells r' c ≠ Empty) ∧
      b' = setCell b r c p := by
  unfold dropScan at h
  cases hf : rowsBottomUp.find? (fun x => b.cells x c == Empty) with
  | none => rw [hf] at h; simp at h
  | some r0 =>
    rw [hf] at h
    have hb' : b' = setCell b r0 c p := by
      have := congrArg Prod.fst h; simpa using this.symm
    have hr0 : r0 = r := by
      have := congrArg Prod.snd h; simpa using this
    subst hr0
    rcases List.find?_eq_some.mp hf with ⟨hq, as, bs, hsplit, hfail⟩
    refine ⟨eq_of_beq hq, ?_, hb'⟩
    intro r' hr'
    have hr'mem : r' ∈ rowsBottomUp := mem_rowsBottomUp r'
    rw [hsplit] at hr'mem
    rcases List.mem_append.mp hr'mem with hin | hin
    · have hx := hfail r' hin
      simp only [Bool.not_eq_true'] at hx
      exact fun hc => absurd hc (by simpa using hx)
    · rcases List.mem_cons.mp hin with rfl | hin
      · exact absurd hr' (lt_irrefl _)
      · have hpw := pairwise_rowsBottomUp
        rw [hsplit] at hpw
        have hcons := (List.pairwise_append.mp hpw).2.1
        have hlt := (List.pairwise_cons.mp hcons).1 r' hin
        exact absurd (Fin.lt_def.mp hr') (by omega)

theorem dropScan_isOk {b : Board} {c : Fin 7} (p : Int)
    (hvalid : b.cells 0 c = Empty) :
    ∃ r : Fin 6, dropScan b c p = (setCell b r c p, .ok r) := by
  cases hf : rowsBottomUp.find? (fun x => b.cells x c == Empty) with
  | none =>
    exact absurd (by simpa using hvalid)
      (by simpa using List.find?_eq_none.mp hf 0 (mem_rowsBottomUp 0))
  | some r0 =>
    refine ⟨r0, ?_⟩
    unfold dropScan
    rw [hf]

theorem undoMove_eq {b : Board} {c : Fin 7} {k : Fin 6}
    (hocc : b.cells k c ≠ Empty)
    (habove : ∀ r : Fin 6, r < k → b.cells r c = Empty) :
    undoMove b c = setCell b k c Empty := by
  obtain ⟨as, bs, hsplit, hlt, _⟩ := rowsTopDown_split k
  have hfind : rowsTopDown.find? (fun r => !(b.cells r c == Empty)) = some k := by
    rw [hsplit]
    apply find?_append_first
    · intro x hx
      have hx0 : b.cells x c = Empty := habove x (by exact hlt x hx)
      simp [hx0]
    · simp [hocc]
  unfold undoMove
  rw [hfind]

theorem undoMove_spec {b : Board} {c : Fin 7} {k : Fin 6}
    (h : rowsTopDown.find? (fun r => !(b.cells r c == Empty)) = some k) :
    b.cells k c ≠ Empty ∧ (∀ r : Fin 6, r < k → b.cells r c = Empty) ∧
      undoMove b c = setCell b k c Empty := by
  rcases List.find?_eq_some.mp h with ⟨hq, as, bs, hsplit, hfail⟩
  have hqk : b.cells k c ≠ Empty := by
    simp only [Bool.not_eq_eq_eq_not, Bool.not_false] at hq
    exact fun hc => by simp [hc] at hq
  refine ⟨hqk, ?_, ?_⟩
  · intro r hr
    have hrmem : r ∈ rowsTopDown := mem_rowsTopDown r
    rw [hsplit] at hrmem
    rcases List.mem_append.mp hrmem with hin | hin
    · have hx := hfail r hin
      simpa using hx
    · rcases List.mem_cons.mp hin with rfl | hin
      · exact absurd hr (lt_irrefl _)
      · have hpw := pairwise_rowsTopDown
        rw [hsplit] at hpw
        have hcons := (List.pairwise_append.mp hpw).2.1
        have hlt := (List.pairwise_cons.mp hcons).1 r hin
        exact absurd (Fin.lt_def.mp hr) (by omega)
  · unfold undoMove
    rw [h]

theorem undoMove_of_empty {b : Board} {c : Fin 7}
    (hempty : ∀ r : Fin 6, b.cells r c = Empty) : undoMove b c = b := by
  unfold undoMove
  have : rowsTopDown.find? (fun r => !(b.cells r c == Empty)) = none := by
    apply List.find?_eq_none.mpr
    intro x _
    simp [hempty x]
  rw [this]

theorem dropScan_error {b b' : Board} {c : Fin 7} {p : Int} {e : GameErr}
    (h : dropScan b c p = (b', .error e)) : b' = b := by
  unfold dropScan at h
  cases hf : rowsBottomUp.find? (fun x => b.cells x c == Empty) with
  | none => rw [hf] at h; exact (congrArg Prod.fst h).symm
  | some r0 => rw [hf] at h; simp at h

theorem dropDiscUnsafe_val (b : Board) (c : Fin 7) (p : Int) :
    dropDiscUnsafe b (c.val : Int) p = dropScan b c p := by
  have hcond : ¬(((c.val : Int)) < 0 ∨ (Columns : Int) ≤ ((c.val : Int))) := by
    have := c.isLt
    unfold Columns
    omega
  unfold dropDiscUnsafe
  rw [dif_neg hcond]
  congr 1

theorem dropDisc_val (b : Board) (c : Fin 7) (p : Int) :
    dropDisc b (c.val : Int) p =
      if p ≠ Player1 ∧ p ≠ Player2 then (b, .error .invalidPlayer)
      else dropScan b c p := by
  have hcond : ¬(((c.val : Int)) < 0 ∨ (Columns : Int) ≤ ((c.val : Int))) := by
    have := c.isLt
    unfold Columns
    omega
  unfold dropDisc
  rw [dif_neg hcond]
  by_cases hp : p ≠ Player1 ∧ p ≠ Player2
  · rw [if_pos hp, if_pos hp]
  · rw [if_neg hp, if_neg hp]
    congr 1

theorem dropDisc_error {b b' : Board} {col p : Int} {e : GameErr}
    (h : dropDisc b col p = (b', .error e)) : b' = b := by
  unfold dropDisc at h
  split at h
  · exact (congrArg Prod.fst h).symm
  · split at h
    · exact (congrArg Prod.fst h).symm
    · exact dropScan_error h

theorem undoMove_dropScan {b b' : Board} {c : Fin 7} {p : Int} {r : Fin 6}
    (hg : Gravity b) (hp : p ≠ Empty)
    (h : dropScan b c p = (b', .ok r)) : undoMove b' c = b := by
  obtain ⟨hempty, _, hb'⟩ := dropScan_ok h
  subst hb'
  have hocc : (setCell b r c p).cells r c ≠ Empty := by
    rw [setCell_cells, if_pos ⟨rfl, rfl⟩]
    exact hp
  have habove : ∀ x : Fin 6, x < r → (setCell b r c p).cells x c = Empty := by
    intro x hx
    rw [setCell_cells, if_neg (by rintro ⟨rfl, -⟩; exact absurd hx (lt_irrefl _))]
    by_contra hne
    exact absurd hempty (hg c x r (le_of_lt hx) hne)
  rw [undoMove_eq hocc habove, setCell_setCell]
  exact setCell_self hempty

theorem gravity_dropScan {b : Board} {c : Fin 7} {p : Int}
    (hg : Gravity b) (hp : p ≠ Empty) : Gravity (dropScan b c p).1 := by
  rcases hf : dropScan b c p with ⟨b', res⟩
  cases res with
  | error e =>
    rw [dropScan_error hf]
    exact hg
  | ok r =>
    obtain ⟨_, hbelow, hb'⟩ := dropScan_ok hf
    subst hb'
    intro c' r1 r2 h12 h1
    rw [setCell_cells] at h1 ⊢
    by_cases h2c : r2 = r ∧ c' = c
    · rw [if_pos h2c]
      exact hp
    · rw [if_neg h2c]
      by_cases h1c : r1 = r ∧ c' = c
      · obtain ⟨rfl, rfl⟩ := h1c
        exact hbelow r2 (lt_of_le_of_ne h12 (fun he => h2c ⟨he.symm, rfl⟩))
      · rw [if_neg h1c] at h1
        exact hg c' r1 r2 h12 h1

theorem gravity_dropDisc {b : Board} {col p : Int}
    (hg : Gravity b) : Gravity (dropDisc b col p).1 := by
  unfold dropDisc
  split
  · exact hg
  · split
    · exact hg
    · rename_i hcol hp
      have hp' : p ≠ Empty := by
        rcases not_and_or.mp hp with h | h
        · rw [not_not.mp h]
          unfold Player1 Empty
          decide
        · rw [not_not.mp h]
          unfold Player2 Empty
          decide
      exact gravity_dropScan hg hp'

theorem gravity_undoMove {b : Board} {c : Fin 7}
    (hg : Gravity b) : Gravity (undoMove b c) := by
  cases hfind : rowsTopDown.find? (fun r => !(b.cells r c == Empty)) with
  | none =>
    rw [show undoMove b c = b from by unfold undoMove; rw [hfind]]
    exact hg
  | some k =>
    obtain ⟨_, hbelowEmpty, heq⟩ := undoMove_spec hfind
    rw [heq]
    intro c' r1 r2 h12 h1
    rw [setCell_cells] at h1 ⊢
    by_cases h1c : r1 = k ∧ c' = c
    · rw [if_pos h1c] at h1
      exact absurd rfl h1
    · rw [if_neg h1c] at h1
      by_cases h2c : r2 = k ∧ c' = c
      · have h2k : r2 = k := h2c.1
        have hcc : c' = c := h2c.2
        subst hcc
        have hne : r1 ≠ k := fun he => h1c ⟨he, rfl⟩
        have hlt : r1 < k := lt_of_le_of_ne (le_trans h12 (le_of_eq h2k)) hne
        exact absurd (hbelowEmpty r1 hlt) h1
      · rw [if_neg h2c]
        exact hg c' r1 r2 h12 h1

theorem gravity_newBoard : Gravity newBoard := by
  intro c r r' _ h
  exact absurd rfl h

theorem gravity_applyOp {b : Board} (hg : Gravity b) (op : BoardOp) :
    Gravity (applyOp b op) := by
  cases op with
  | drop column player => exact gravity_dropDisc hg
  | undo column => exact gravity_undoMove hg

theorem gravity_foldl {b : Board} (hg : Gravity b) (ops : List BoardOp) :
    Gravity (ops.foldl applyOp b) := by
  induction ops generalizing b with
  | nil => exact hg
  | cons op rest ih => exact ih (gravity_applyOp hg op)

theorem player_ne_empty {p : Int} (hp : ¬(p ≠ Player1 ∧ p ≠ Player2)) : p ≠ Empty := by
  rcases not_and_or.mp hp with h | h
  · rw [not_not.mp h]
    unfold Player1 Empty
    decide
  · rw [not_not.mp h]
    unfold Player2 Empty
    decide

theorem dropDisc_ok_player {b b' : Board} {col p : Int} {r : Fin 6}
    (h : dropDisc b col p = (b', .ok r)) : p = Player1 ∨ p = Player2 := by
  unfold dropDisc at h
  split at h
  · simp at h
  · split at h
    · simp at h
    · rename_i hp
      rcases not_and_or.mp hp with h' | h'
      · exact Or.inl (not_not.mp h')
      · exact Or.inr (not_not.mp h')

/-- C1 (amended): `Forfeit(losingSide)` unconditionally forces status
`Finished`, result `Forfeit` and winner = the opposite side, from ANY status
(including an already-`Finished` match, whose recorded result and winner it
overwrites); a repeated forfeit with the same losing side leaves status,
result and winner unchanged. -/
theorem c1_forfeit_transitions (g : Game) (loser : Int) :
    (forfeit g loser).status = GameStatus.finished ∧
    (forfeit g loser).result = some GameResult.forfeit ∧
    (loser = Player1 → (forfeit g loser).winner = some Player2) ∧
    (loser = Player2 → (forfeit g loser).winner = some Player1) ∧
    forfeit (forfeit g loser) loser = forfeit g loser := by
  refine ⟨rfl, rfl, ?_, ?_, rfl⟩
  · rintro rfl
    rfl
  · rintro rfl
    rfl

/-- Witness for C1: forfeiting player one hands the win to player two. -/
theorem c1_forfeit_transitions_witness :
    (forfeit sampleGame Player1).winner = some Player2 :=
  (c1_forfeit_transitions sampleGame Player1).2.2.1 rfl

/-- C1 counterexample: on a match already `Finished` with winner = player
one, a further `Forfeit(Player1)` call is NOT a no-op — it flips the
recorded winner to player two. -/
theorem c1_forfeit_counterexample :
    finishedByForfeitGame.status = GameStatus.finished ∧
    finishedByForfeitGame.winner = some Player1 ∧
    (forfeit finishedByForfeitGame Player1).winner = some Player2 ∧
    (forfeit finishedByForfeitGame Player1).winner ≠ finishedByForfeitGame.winner := by
  decide

/-- C3: `MakeMove` by the player not holding the turn (status `Playing`)
fails with the not-your-turn error, and `MakeMove` in any status other than
`Playing` fails with the not-in-progress error; in both cases the whole game
state — board, move log, turn, status — is returned unchanged. -/
theorem c3_make_move_rejections (g : Game) (p column : Int) :
    (g.status = GameStatus.playing → g.currentTurn ≠ p →
      makeMove g p column = (g, .error .notYourTurn)) ∧
    (g.status ≠ GameStatus.playing →
      makeMove g p column = (g, .error .gameNotInProgress)) := by
  constructor
  · intro hst hturn
    unfold makeMove
    rw [if_neg (by simp [hst]), if_pos hturn]
  · intro hst
    unfold makeMove
    rw [if_pos hst]

/-- Witness for C3: player two moving first is rejected. -/
theorem c3_make_move_rejections_witness :
    makeMove sampleGame Player2 0 = (sampleGame, .error .notYourTurn) :=
  (c3_make_move_rejections sampleGame Player2 0).1 rfl (by decide)

/-- C4: `PlayerReconnected(side)` returns true exactly when the match is
`Disconnected` for that side with at most 30 seconds elapsed; it then
restores `Playing`, and in every other case it returns false with the match
state untouched. -/
theorem c4_reconnect_window (g : Game) (p : Int) (now : Nat) :
    ((playerReconnected g p now).2 = true ↔
      g.status = GameStatus.disconnected ∧ g.disconnectedPlayer = p ∧
        now - g.disconnectTime ≤ 30) ∧
    ((playerReconnected g p now).2 = true →
      (playerReconnected g p now).1.status = GameStatus.playing) ∧
    ((playerReconnected g p now).2 = false → (playerReconnected g p now).1 = g) := by
  unfold playerReconnected
  by_cases h1 : g.status ≠ GameStatus.disconnected ∨ g.disconnectedPlayer ≠ p
  · rw [if_pos h1]
    refine ⟨?_, ?_, fun _ => rfl⟩
    · constructor
      · intro hfalse
        exact absurd hfalse (by simp)
      · rintro ⟨ha, hb, -⟩
        rcases h1 with h | h
        · exact absurd ha h
        · exact absurd hb h
    · intro hfalse
      exact absurd hfalse (by simp)
  · rw [if_neg h1]
    push_neg at h1
    obtain ⟨hst, hdp⟩ := h1
    by_cases h2 : now - g.disconnectTime > 30
    · rw [if_pos h2]
      refine ⟨?_, ?_, fun _ => rfl⟩
      · constructor
        · intro hfalse
          exact absurd hfalse (by simp)
        · rintro ⟨-, -, hle⟩
          omega
      · intro hfalse
        exact absurd hfalse (by simp)
    · rw [if_neg h2]
      by_cases h3 : (p == Player1) = true
      · rw [if_pos h3]
        exact ⟨⟨fun _ => ⟨hst, hdp, by omega⟩, fun _ => rfl⟩, fun _ => rfl,
          fun hfalse => absurd hfalse (by simp)⟩
      · rw [if_neg h3]
        exact ⟨⟨fun _ => ⟨hst, hdp, by omega⟩, fun _ => rfl⟩, fun _ => rfl,
          fun hfalse => absurd hfalse (by simp)⟩

/-- Witness for C4: reconnecting the disconnected side 29 seconds later
succeeds and restores `Playing`. -/
theorem c4_reconnect_window_witness :
    (playerReconnected disconnectedGame Player1 129).2 = true ∧
    (playerReconnected disconnectedGame Player1 129).1.status = GameStatus.playing := by
  have h := c4_reconnect_window disconnectedGame Player1 129
  have ht := h.1.mpr ⟨by decide, by decide, by decide⟩
  exact ⟨ht, h.2.1 ht⟩

/-- C5 (amended with the gravity precondition): on a board satisfying the
gravity invariant, a successful `DropDisc` followed by `UndoMove` on the
same column restores the board cell for cell. -/
theorem c5_undo_after_drop (b : Board) (c : Fin 7) (p : Int) (b' : Board) (r : Fin 6)
    (hg : Gravity b) (h : dropDisc b (c.val : Int) p = (b', .ok r)) :
    undoMove b' c = b := by
  rw [dropDisc_val] at h
  by_cases hp : p ≠ Player1 ∧ p ≠ Player2
  · rw [if_pos hp] at h
    simp at h
  · rw [if_neg hp] at h
    exact undoMove_dropScan hg (player_ne_empty hp) h

/-- Witness for C5: drop into the empty board, undo, back to empty. -/
theorem c5_undo_after_drop_witness :
    undoMove (dropDisc newBoard (((0 : Fin 7).val : Int)) Player1).1 0 = newBoard :=
  c5_undo_after_drop newBoard 0 Player1 _ 5 (by decide) (by decide)

/-- C5 counterexample: on a board violating gravity (a floating disc at row
1 of column 0), `DropDisc(0, Player1)` succeeds (landing at the bottom, row
5) but `UndoMove(0)` then removes the floating disc instead, so the prior
board is NOT restored. -/
theorem c5_counterexample :
    (dropDisc cexBoardC5 0 Player1).2 = .ok 5 ∧
    undoMove (dropDisc cexBoardC5 0 Player1).1 0 ≠ cexBoardC5 := by
  constructor
  · decide
  · intro h
    exact absurd (congrArg (fun bb => bb.cells 1 0) h) (by decide)

/-- C8: every board reachable from the empty board by a sequence of
`DropDisc`/`UndoMove` operations satisfies the gravity invariant, and both
operations preserve it. -/
theorem c8_gravity_preserved :
    (∀ ops : List BoardOp, Gravity (runOps ops)) ∧
    (∀ (b : Board) (op : BoardOp), Gravity b → Gravity (applyOp b op)) :=
  ⟨fun ops => gravity_foldl gravity_newBoard ops,
   fun _ op hg => gravity_applyOp hg op⟩

/-- Witness for C8: a concrete drop/drop/undo sequence keeps gravity. -/
theorem c8_gravity_preserved_witness :
    Gravity (runOps [BoardOp.drop 3 Player1, BoardOp.drop 3 Player2, BoardOp.undo 3]) ∧
    Gravity (applyOp newBoard (BoardOp.drop 0 Player1)) :=
  ⟨c8_gravity_preserved.1 _,
   c8_gravity_preserved.2 newBoard (BoardOp.drop 0 Player1) (by decide)⟩

/-- C10: `DropDisc` with a player value that is neither `Player1` nor
`Player2` always errors and leaves the board unchanged (for an out-of-range
column it is the column error, otherwise the invalid-player error). -/
theorem c10_drop_invalid_player (b : Board) (column p : Int)
    (hp1 : p ≠ Player1) (hp2 : p ≠ Player2) :
    (dropDisc b column p).1 = b ∧ ∃ e, (dropDisc b column p).2 = .error e := by
  unfold dropDisc
  split
  · exact ⟨rfl, GameErr.invalidColumn, rfl⟩
  · rw [if_pos ⟨hp1, hp2⟩]
    exact ⟨rfl, GameErr.invalidPlayer, rfl⟩

/-- Witness for C10: dropping the `Empty` value 0 is rejected. -/
theorem c10_drop_invalid_player_witness :
    (dropDisc newBoard 3 0).1 = newBoard ∧ ∃ e, (dropDisc newBoard 3 0).2 = .error e :=
  c10_drop_invalid_player newBoard 3 0 (by decide) (by decide)

/-- C2: a successful `MakeMove` by the side holding the turn of a `Playing`
match appends exactly one move record and then either finishes the match
with that side as winner (four in a row on the resulting board), or finishes
it as a draw with no winner (board full), or flips the turn. -/
theorem c2_make_move_applies (g : Game) (side column : Int) (g' : Game) (r : Fin 6)
    (hst : g.status = GameStatus.playing) (hturn : g.currentTurn = side)
    (hw : g.winner = none)
    (h : makeMove g side column = (g', .ok r)) :
    g'.moves = g.moves ++ [(⟨side, column, r⟩ : GMove)] ∧
    (checkWin g'.board side = true →
      g'.status = GameStatus.finished ∧ g'.winner = some side) ∧
    (checkWin g'.board side = false → isFull g'.board = true →
      g'.status = GameStatus.finished ∧ g'.result = some GameResult.draw ∧
        g'.winner = none) ∧
    (checkWin g'.board side = false → isFull g'.board = false →
      g'.status = GameStatus.playing ∧
      g'.currentTurn = (if side == Player1 then Player2 else Player1)) := by
  unfold makeMove at h
  rw [if_neg (by simp [hst])] at h
  rw [if_neg (by simp [hturn])] at h
  rcases hd : dropDisc g.board column side with ⟨b2, res⟩
  rw [hd] at h
  cases res with
  | error e => simp at h
  | ok row =>
    have hside := dropDisc_ok_player hd
    dsimp only at h
    split at h
    · rename_i hwin
      split at h
      · rename_i hP1
        rw [Prod.mk.injEq] at h
        obtain ⟨hg', hr2⟩ := h
        obtain rfl : row = r := by injection hr2
        subst hg'
        refine ⟨rfl, fun _ => ⟨rfl, ?_⟩, fun hcw _ => ?_, fun hcw _ => ?_⟩
        · rw [eq_of_beq hP1]
        · rw [show checkWin b2 side = true from hwin] at hcw
          exact absurd hcw (by simp)
        · rw [show checkWin b2 side = true from hwin] at hcw
          exact absurd hcw (by simp)
      · rename_i hP1
        rw [Prod.mk.injEq] at h
        obtain ⟨hg', hr2⟩ := h
        obtain rfl : row = r := by injection hr2
        subst hg'
        refine ⟨rfl, fun _ => ⟨rfl, ?_⟩, fun hcw _ => ?_, fun hcw _ => ?_⟩
        · rcases hside with rfl | rfl
          · exact absurd (by simp [Player1]) hP1
          · rfl
        · rw [show checkWin b2 side = true from hwin] at hcw
          exact absurd hcw (by simp)
        · rw [show checkWin b2 side = true from hwin] at hcw
          exact absurd hcw (by simp)
    · rename_i hwin
      split at h
      · rename_i hfull
        rw [Prod.mk.injEq] at h
        obtain ⟨hg', hr2⟩ := h
        obtain rfl : row = r := by injection hr2
        subst hg'
        refine ⟨rfl, fun hcw => ?_, fun _ _ => ⟨rfl, rfl, hw⟩, fun _ hfl => ?_⟩
        · rw [show checkWin b2 side = false from by simpa using hwin] at hcw
          exact absurd hcw (by simp)
        · rw [show isFull b2 = true from hfull] at hfl
          exact absurd hfl (by simp)
      · rename_i hfull
        rw [Prod.mk.injEq] at h
        obtain ⟨hg', hr2⟩ := h
        obtain rfl : row = r := by injection hr2
        subst hg'
        refine ⟨rfl, fun hcw => ?_, fun _ hfl => ?_, fun _ _ => ⟨hst, ?_⟩⟩
        · rw [show checkWin b2 side = false from by simpa using hwin] at hcw
          exact absurd hcw (by simp)
        · rw [show isFull b2 = false from by simpa using hfull] at hfl
          exact absurd hfl (by simp)
        · rw [hturn]

/-- Witness for C2: the first move of a fresh two-human game drops into the
bottom row and flips the turn. -/
theorem c2_make_move_applies_witness :
    (makeMove sampleGame Player1 0).1.moves =
      sampleGame.moves ++ [(⟨Player1, 0, 5⟩ : GMove)] ∧
    (checkWin (makeMove sampleGame Player1 0).1.board Player1 = false →
      isFull (makeMove sampleGame Player1 0).1.board = false →
      (makeMove sampleGame Player1 0).1.status = GameStatus.playing ∧
      (makeMove sampleGame Player1 0).1.currentTurn =
        (if Player1 == Player1 then Player2 else Player1)) := by
  have h := c2_make_move_applies sampleGame Player1 0 (makeMove sampleGame Player1 0).1 5
    (by decide) (by decide) (by decide) (by decide)
  exact ⟨h.1, h.2.2.2⟩

theorem mem_getValidColumns {b : Board} {c : Fin 7} :
    c ∈ getValidColumns b ↔ b.cells 0 c = Empty := by
  unfold getValidColumns
  rw [List.mem_filter]
  simp [List.mem_finRange]

theorem bestMoveWinScan_mem {bot : Bot} {cols : List (Fin 7)} :
    ∀ {b : Board} {col : Fin 7} {b' : Board},
      bestMoveWinScan bot b cols = (some col, b') → col ∈ cols := by
  induction cols with
  | nil =>
    intro b col b' h
    simp [bestMoveWinScan] at h
  | cons x rest ih =>
    intro b col b' h
    unfold bestMoveWinScan at h
    dsimp only at h
    split at h
    · rw [Prod.mk.injEq] at h
      obtain ⟨h1, -⟩ := h
      obtain rfl : x = col := by injection h1
      exact List.mem_cons_self _ _
    · exact List.mem_cons_of_mem _ (ih h)

theorem bestMoveBlockScan_mem {bot : Bot} {cols : List (Fin 7)} :
    ∀ {b : Board} {col : Fin 7} {b' : Board},
      bestMoveBlockScan bot b cols = (some col, b') → col ∈ cols := by
  induction cols with
  | nil =>
    intro b col b' h
    simp [bestMoveBlockScan] at h
  | cons x rest ih =>
    intro b col b' h
    unfold bestMoveBlockScan at h
    dsimp only at h
    split at h
    · rw [Prod.mk.injEq] at h
      obtain ⟨h1, -⟩ := h
      obtain rfl : x = col := by injection h1
      exact List.mem_cons_self _ _
    · exact List.mem_cons_of_mem _ (ih h)

theorem bestMoveSearch_mem {bot : Bot} {S : List (Fin 7)} {cols : List (Fin 7)} :
    ∀ {b : Board} {score : Int} {bc : Fin 7},
      bc ∈ S → (∀ c ∈ cols, c ∈ S) → bestMoveSearch bot b cols score bc ∈ S := by
  induction cols with
  | nil =>
    intro b score bc hbc _
    simpa [bestMoveSearch] using hbc
  | cons x rest ih =>
    intro b score bc hbc hsub
    unfold bestMoveSearch
    dsimp only
    split
    · exact ih (hsub x (by simp)) (fun c hc => hsub c (by simp [hc]))
    · exact ih hbc (fun c hc => hsub c (by simp [hc]))

theorem orderedColumns_subset {cols : List (Fin 7)} {c : Fin 7}
    (h : c ∈ orderedColumns cols) : c ∈ cols := by
  unfold orderedColumns at h
  exact List.mem_of_elem_eq_true ((List.mem_filter.mp h).2)

theorem bestMoveWinScan_eq {bot : Bot} (hp : bot.player ≠ Empty) {b : Board} :
    ∀ cols : List (Fin 7), Gravity b → (∀ c ∈ cols, b.cells 0 c = Empty) →
      bestMoveWinScan bot b cols = (cols.find? (winningMove b bot.player), b) := by
  intro cols
  induction cols with
  | nil =>
    intro _ _
    simp [bestMoveWinScan]
  | cons x rest ih =>
    intro hg hvalid
    obtain ⟨r, hdrop⟩ := dropScan_isOk bot.player (hvalid x (by simp))
    have hb1 : (dropDiscUnsafe b (x.val : Int) bot.player).1 = setCell b r x bot.player := by
      rw [dropDiscUnsafe_val, hdrop]
    have hundo : undoMove (setCell b r x bot.player) x = b :=
      undoMove_dropScan hg hp hdrop
    have hwm : winningMove b bot.player x = checkWin (setCell b r x bot.player) bot.player := by
      unfold winningMove
      rw [dropDiscUnsafe_val, hdrop]
    unfold bestMoveWinScan
    dsimp only
    rw [hb1, hundo]
    by_cases hcw : checkWin (setCell b r x bot.player) bot.player = true
    · rw [if_pos hcw, List.find?_cons_of_pos _ (by rw [hwm]; exact hcw)]
    · rw [if_neg hcw, List.find?_cons_of_neg _ (by rw [hwm]; exact hcw)]
      exact ih hg (fun c hc => hvalid c (by simp [hc]))

theorem bestMoveBlockScan_eq {bot : Bot} (ho : bot.opponent ≠ Empty) {b : Board} :
    ∀ cols : List (Fin 7), Gravity b → (∀ c ∈ cols, b.cells 0 c = Empty) →
      bestMoveBlockScan bot b cols = (cols.find? (winningMove b bot.opponent), b) := by
  intro cols
  induction cols with
  | nil =>
    intro _ _
    simp [bestMoveBlockScan]
  | cons x rest ih =>
    intro hg hvalid
    obtain ⟨r, hdrop⟩ := dropScan_isOk bot.opponent (hvalid x (by simp))
    have hb1 : (dropDiscUnsafe b (x.val : Int) bot.opponent).1 = setCell b r x bot.opponent := by
      rw [dropDiscUnsafe_val, hdrop]
    have hundo : undoMove (setCell b r x bot.opponent) x = b :=
      undoMove_dropScan hg ho hdrop
    have hwm : winningMove b bot.opponent x = checkWin (setCell b r x bot.opponent) bot.opponent := by
      unfold winningMove
      rw [dropDiscUnsafe_val, hdrop]
    unfold bestMoveBlockScan
    dsimp only
    rw [hb1, hundo]
    by_cases hcw : checkWin (setCell b r x bot.opponent) bot.opponent = true
    · rw [if_pos hcw, List.find?_cons_of_pos _ (by rw [hwm]; exact hcw)]
    · rw [if_neg hcw, List.find?_cons_of_neg _ (by rw [hwm]; exact hcw)]
      exact ih hg (fun c hc => hvalid c (by simp [hc]))

/-- C6 (amended with the gravity precondition): on a gravity-respecting
board, if the engine's side has an immediately winning column,
`GetBestMove` returns such a column; otherwise, if the opponent has an
immediately winning column, `GetBestMove` returns such a blocking column. -/
theorem c6_best_move_win_block (bot : Bot) (b : Board)
    (hsides : bot.player = Player1 ∧ bot.opponent = Player2 ∨
              bot.player = Player2 ∧ bot.opponent = Player1)
    (hg : Gravity b) :
    ((∃ c ∈ getValidColumns b, winningMove b bot.player c = true) →
      ∃ c, getBestMove bot b = some c ∧ c ∈ getValidColumns b ∧
        winningMove b bot.player c = true) ∧
    ((∀ c ∈ getValidColumns b, winningMove b bot.player c = false) →
      (∃ c ∈ getValidColumns b, winningMove b bot.opponent c = true) →
      ∃ c, getBestMove bot b = some c ∧ c ∈ getValidColumns b ∧
        winningMove b bot.opponent c = true) := by
  have hp : bot.player ≠ Empty := by
    rcases hsides with ⟨h1, -⟩ | ⟨h1, -⟩ <;> rw [h1] <;> decide
  have ho : bot.opponent ≠ Empty := by
    rcases hsides with ⟨-, h1⟩ | ⟨-, h1⟩ <;> rw [h1] <;> decide
  have hvalid : ∀ c ∈ getValidColumns b, b.cells 0 c = Empty :=
    fun c hc => mem_getValidColumns.mp hc
  constructor
  · rintro ⟨c0, hc0, hwin0⟩
    cases hf : (getValidColumns b).find? (winningMove b bot.player) with
    | none => exact absurd hwin0 (by simpa using List.find?_eq_none.mp hf c0 hc0)
    | some c =>
      refine ⟨c, ?_, List.mem_of_find?_eq_some hf, List.find?_some hf⟩
      unfold getBestMove
      dsimp only
      rw [bestMoveWinScan_eq hp _ hg hvalid, hf]
  · rintro hnone ⟨c0, hc0, hblk0⟩
    have hfindw : (getValidColumns b).find? (winningMove b bot.player) = none :=
      List.find?_eq_none.mpr (fun x hx => by rw [hnone x hx]; simp)
    cases hf : (getValidColumns b).find? (winningMove b bot.opponent) with
    | none => exact absurd hblk0 (by simpa using List.find?_eq_none.mp hf c0 hc0)
    | some c =>
      refine ⟨c, ?_, List.mem_of_find?_eq_some hf, List.find?_some hf⟩
      unfold getBestMove
      dsimp only
      rw [bestMoveWinScan_eq hp _ hg hvalid, hfindw]
      dsimp only
      rw [bestMoveBlockScan_eq ho _ hg hvalid, hf]

/-- Witness for C6: with three side-two discs on the bottom row, the bot
plays the completing column 3. -/
theorem c6_best_move_win_block_witness :
    ∃ c, getBestMove sampleBot winInOneBoard = some c ∧
      c ∈ getValidColumns winInOneBoard ∧
      winningMove winInOneBoard sampleBot.player c = true :=
  (c6_best_move_win_block sampleBot winInOneBoard (by decide) (by decide)).1
    ⟨3, by decide, by decide⟩

/-- C6 counterexample: on a board that violates gravity, the speculative
drop/undo pairs corrupt the working copy, and `GetBestMove` returns column
2 although the unique immediately winning column is 3 (and column 2 is not
winning). -/
theorem c6_counterexample :
    winningMove cexBoardC6 Player2 3 = true ∧
    getBestMove sampleBot cexBoardC6 = some 2 ∧
    winningMove cexBoardC6 Player2 2 = false := by
  decide

/-- C9: whenever at least one column is valid, `GetBestMove` returns a
member of `GetValidColumns`; with no valid column it has no result at all
(the Go code would panic reading `validCols[0]`), modelled by `none`. -/
theorem c9_best_move_valid (bot : Bot) :
    (∀ b : Board, getValidColumns b ≠ [] →
      ∃ c, getBestMove bot b = some c ∧ c ∈ getValidColumns b) ∧
    getBestMove bot fullBoard = none := by
  constructor
  · intro b hne
    unfold getBestMove
    dsimp only
    rcases hw : bestMoveWinScan bot b (getValidColumns b) with ⟨ow, b1⟩
    cases ow with
    | some col => exact ⟨col, rfl, bestMoveWinScan_mem hw⟩
    | none =>
      dsimp only
      rcases hb : bestMoveBlockScan bot b1 (getValidColumns b) with ⟨ob, b2⟩
      cases ob with
      | some col => exact ⟨col, rfl, bestMoveBlockScan_mem hb⟩
      | none =>
        dsimp only
        cases hcols : getValidColumns b with
        | nil => exact absurd hcols hne
        | cons c0 cs =>
          exact ⟨bestMoveSearch bot b2 (orderedColumns (c0 :: cs)) minInt32 c0, rfl,
            bestMoveSearch_mem (by simp) (fun c hc => orderedColumns_subset hc)⟩
  · rfl

/-- Witness for C9: on the empty board some valid column is returned. -/
theorem c9_best_move_valid_witness :
    ∃ c, getBestMove sampleBot newBoard = some c ∧ c ∈ getValidColumns newBoard :=
  (c9_best_move_valid sampleBot).1 newBoard (by decide)

/-- C7 (amended): `JoinQueue(name)` resolves immediately to the caller's
existing Match whenever the name is mapped to a game still registered in
`activeGames` — regardless of that game's status, so a finished game still
in the registry IS returned to a rejoining player; otherwise, with a
non-empty waiting queue, it pops exactly the oldest entry, creates exactly
one new Match pairing the two names (delivered to both), and leaves no
extra entry queued. -/
theorem c7_join_queue (m : Matchmaker) (u fid : String) :
    (∀ g, ownsActiveGame m u = some g → joinQueue m u fid = (m, .existing g)) ∧
    (ownsActiveGame m u = none → ∀ w rest, m.waitingQueue = w :: rest →
      joinQueue m u fid =
        ({ waitingQueue := rest,
           activeGames := (fid, addPlayer2 (newGame fid w.username) u false) :: m.activeGames,
           playerGames := (w.username, fid) :: (u, fid) :: m.playerGames },
         .matched (addPlayer2 (newGame fid w.username) u false)) ∧
      (addPlayer2 (newGame fid w.username) u false).player1 =
        some ⟨w.username, Player1, false, true⟩ ∧
      (addPlayer2 (newGame fid w.username) u false).player2 =
        some ⟨u, Player2, false, true⟩ ∧
      (addPlayer2 (newGame fid w.username) u false).status = GameStatus.playing) := by
  constructor
  · intro g hg
    unfold ownsActiveGame at hg
    unfold joinQueue
    cases hlu : m.playerGames.lookup u with
    | none =>
      rw [hlu] at hg
      simp at hg
    | some gid =>
      rw [hlu] at hg
      dsimp only at hg
      dsimp only
      rw [hg]
  · intro hnone w rest hq
    unfold ownsActiveGame at hnone
    unfold joinQueue joinQueuePair
    cases hlu : m.playerGames.lookup u with
    | none =>
      dsimp only
      rw [hq]
      exact ⟨rfl, rfl, rfl, rfl⟩
    | some gid =>
      rw [hlu] at hnone
      dsimp only at hnone
      dsimp only
      rw [hnone]
      dsimp only
      rw [hq]
      exact ⟨rfl, rfl, rfl, rfl⟩

/-- Witness for C7: pairing a joiner with the lone queued entry. -/
theorem c7_join_queue_witness :
    joinQueue ⟨[⟨"carol"⟩], [], []⟩ "dave" "g9" =
      ({ waitingQueue := [],
         activeGames := [("g9", addPlayer2 (newGame "g9" "carol") "dave" false)],
         playerGames := [("carol", "g9"), ("dave", "g9")] },
       .matched (addPlayer2 (newGame "g9" "carol") "dave" false)) :=
  ((c7_join_queue ⟨[⟨"carol"⟩], [], []⟩ "dave" "g9").2 rfl ⟨"carol"⟩ [] rfl).1

/-- C7 counterexample: a finished game still present in `activeGames` (the
hub removes games only after a grace period) is returned to a rejoining
player — `JoinQueue` never inspects the game's status. -/
theorem c7_counterexample :
    joinQueue cexMatchmaker "alice" "g2" = (cexMatchmaker, .existing finishedByForfeitGame) ∧
    finishedByForfeitGame.status = GameStatus.finished := by
  decide

end ConnectFour
